import Mathlib

/-!
Verification of the `gemini-deep-research` repository (TypeScript client
library, CLI and Express web server for the Gemini Interactions API).

The development shallowly embeds the repository's local logic:

* the uniform API result envelope (`ApiResponse`);
* the polling wait loop `waitForCompletion` (the client module is not part
  of the provided sources, so it is modelled from the specification);
* the file manager's `scanFolder` / `loadFile` (also modelled from the
  specification, the file-manager module not being among the sources);
* the upload CLI command's `FileManager` configuration and its main loop
  (`src/cli/commands/upload.ts`);
* the status CLI command's control flow and session-name normalisation
  (`src/cli/commands/status.ts`);
* the Express web server's middleware pipeline and error middleware
  (the web-server source file).

File system contents, environment variables and remote API answers are
passed in explicitly; effects such as `console.log` and `process.exit`
are recorded as events in the order the source would perform them.
-/

/-- `{code, message}` error payload of the uniform result envelope. -/
structure ErrorInfo where
  code : String
  message : String
deriving Repr, DecidableEq

/-- The uniform result envelope `{success: true, data} | {success: false, error}`. -/
inductive ApiResponse (α : Type) where
  | success (data : α)
  | failure (error : ErrorInfo)
deriving Repr, DecidableEq

/-- Remote interaction state, `pending` until a terminal state is reached. -/
inductive InteractionState where
  | pending
  | succeeded
  | failed
deriving Repr, DecidableEq

/-- The `Timeout` error produced when the polling budget is exhausted. -/
def timeoutError : ErrorInfo :=
  { code := "TIMEOUT", message := "Interaction did not complete within timeout" }

/-- The `RemoteFailure` error produced when the interaction itself failed server-side. -/
def remoteFailureError : ErrorInfo :=
  { code := "REMOTE_FAILURE", message := "Interaction failed" }

/-- One polling step: read the state reported at poll number `k`; stop on a
terminal state, otherwise sleep one interval and poll again while fuel
remains.  `fuel` is the number of polls still allowed by the time budget. -/
def waitLoop (states : Nat → InteractionState) : Nat → Nat → ApiResponse InteractionState
  | 0, _ => .failure timeoutError
  | fuel + 1, k =>
    match states k with
    | .succeeded => .success .succeeded
    | .failed => .failure remoteFailureError
    | .pending => waitLoop states fuel (k + 1)

/-- Modelled from the spec: `waitForCompletion(name, intervalMs, timeoutMs)`
lives in the client module, which is not among the provided sources.  Per the
specification it "repeatedly reads interaction state until it is terminal
(succeeded/failed) or a caller-supplied timeout elapses, at which point it
fails with a `Timeout` error", and a timeout smaller than one poll interval
must yield `Timeout` without ever reporting completion; so each poll is
taken to occur after one full interval of elapsed time, making the number of
polls the time budget allows exactly `timeoutMs / intervalMs`.  The remote's
answer to the `k`-th poll is supplied as `states k`. -/
def waitForCompletion (states : Nat → InteractionState)
    (intervalMs timeoutMs : Nat) : ApiResponse InteractionState :=
  waitLoop states (timeoutMs / intervalMs) 0

/-- **C1.** `waitForCompletion` with `timeoutMs = 0`, or with any `timeoutMs`
smaller than one poll interval, returns the `Timeout` failure — in particular
it never reports a completed result. -/
theorem waitForCompletion_timeout_when_budget_below_interval
    (states : Nat → InteractionState) (intervalMs timeoutMs : Nat)
    (hlt : timeoutMs < intervalMs) :
    waitForCompletion states intervalMs timeoutMs = .failure timeoutError := by
  unfold waitForCompletion
  rw [Nat.div_eq_of_lt hlt]
  rfl

/-- Witness for C1: a remote that would immediately report success is still
answered with `Timeout` when the budget (`500 ms`) is below one interval
(`1000 ms`). -/
theorem waitForCompletion_timeout_witness :
    waitForCompletion (fun _ => .succeeded) 1000 500 = .failure timeoutError :=
  waitForCompletion_timeout_when_budget_below_interval
    (fun _ => .succeeded) 1000 500 (by decide)

/-! ### File manager (modelled from the spec; the file-manager module is not
among the provided sources, only its callers in `upload.ts` are). -/

/-- One entry met by the directory walk: its path, its extension (as the
file manager would extract it), its size in bytes, and whether it can be
read (symlink cycles and unreadable entries are flagged unreadable). -/
structure FileEntry where
  path : String
  ext : String
  size : Nat
  readable : Bool
deriving Repr, DecidableEq

/-- Reason a traversed entry was skipped rather than accepted. -/
inductive SkipReason where
  | extensionFiltered
  | tooLarge
  | unreadable
deriving Repr, DecidableEq

/-- Upload unit built for an accepted or loaded file: name, path, byte
size and MIME type. -/
structure Document where
  name : String
  path : String
  size : Nat
  mimeType : String
deriving Repr, DecidableEq

/-- A skipped file: its path and the reason it was skipped. -/
structure SkippedFile where
  path : String
  reason : SkipReason
deriving Repr, DecidableEq

/-- Result of one folder scan: accepted files, skipped files, total
accepted byte size. -/
structure ScanResult where
  files : List Document
  skipped : List SkippedFile
  totalSize : Nat
deriving Repr, DecidableEq

/-- Scan filters: optional extension allow-list and the size limit. -/
structure FileFilters where
  extensions : Option (List String)
  maxFileSize : Nat
deriving Repr, DecidableEq

/-- Final path component, used as a document's name. -/
def baseName (p : String) : String :=
  ((p.splitOn "/").getLast?).getD p

/-- Modelled from the spec: MIME type resolution is extension-based with a
fallback of `application/octet-stream` for unknown extensions. -/
def mimeFor (ext : String) : String :=
  (([(".pdf", "application/pdf"), (".txt", "text/plain"),
     (".md", "text/markdown"), (".html", "text/html"),
     (".json", "application/json")].lookup ext.toLower)).getD
    "application/octet-stream"

/-- Case-insensitive extension allow-list test; everything is allowed when
no allow-list is configured. -/
def extAllowed (allow : Option (List String)) (ext : String) : Bool :=
  match allow with
  | none => true
  | some l => l.any fun a => a.toLower == ext.toLower

/-- Modelled from the spec: classification of one traversed entry —
unreadable entries are skipped `unreadable`; otherwise the entry is
accepted if its extension (case-insensitive) is in the allow-list (or no
allow-list is configured) and its size is at most `maxFileSize`, else it
is skipped `extension-filtered` or `too-large`; never silently dropped. -/
def classifyEntry (filters : FileFilters) (e : FileEntry) : Document ⊕ SkippedFile :=
  if e.readable = false then
    .inr ⟨e.path, .unreadable⟩
  else if extAllowed filters.extensions e.ext = false then
    .inr ⟨e.path, .extensionFiltered⟩
  else if filters.maxFileSize < e.size then
    .inr ⟨e.path, .tooLarge⟩
  else
    .inl ⟨baseName e.path, e.path, e.size, mimeFor e.ext⟩

/-- Order on traversed entries: lexical by path. -/
def pathLe (a b : FileEntry) : Prop := a.path ≤ b.path

instance : DecidableRel pathLe := fun a b =>
  inferInstanceAs (Decidable (a.path ≤ b.path))

instance : IsTotal FileEntry pathLe := ⟨fun a b => le_total a.path b.path⟩

instance : IsTrans FileEntry pathLe := ⟨fun _ _ _ h₁ h₂ => le_trans h₁ h₂⟩

/-- Strict version of `pathLe`, used to compare sorted traversals. -/
def pathLt (a b : FileEntry) : Prop := a.path < b.path

instance : IsAntisymm FileEntry pathLt :=
  ⟨fun _ _ h₁ h₂ => absurd h₂ (not_lt_of_lt h₁)⟩

/-- The traversal order of a scan: lexical by path. -/
def sortByPath (l : List FileEntry) : List FileEntry :=
  List.insertionSort pathLe l

/-- Modelled from the spec: `scanFolder(path, {recursive, extensions,
maxFileSize})` walks the directory tree and classifies each traversed
entry; the walk is represented by the list of entries it visits (depth
control by `recursive` is part of producing that list), and results are
ordered lexically by path. -/
def scanFolder (filters : FileFilters) (entries : List FileEntry) : ScanResult :=
  let sorted := sortByPath entries
  let files := sorted.filterMap fun e => (classifyEntry filters e).getLeft?
  { files := files
    skipped := sorted.filterMap fun e => (classifyEntry filters e).getRight?
    totalSize := (files.map Document.size).sum }

/-- Modelled from the spec: `loadFile(path)` reads one file's bytes and
metadata, and returns a null/absent result — not a thrown fault — if the
path does not exist or cannot be read.  `fs` maps each path to the entry
found there, if any. -/
def loadFile (fs : String → Option FileEntry) (p : String) : Option Document :=
  match fs p with
  | none => none
  | some e =>
    if e.readable then some ⟨baseName p, p, e.size, mimeFor e.ext⟩ else none

theorem classifyEntry_inl_path (filters : FileFilters) (e : FileEntry)
    (d : Document) (h : classifyEntry filters e = Sum.inl d) : d.path = e.path := by
  unfold classifyEntry at h
  split_ifs at h <;> cases h <;> rfl

theorem classifyEntry_inr_path (filters : FileFilters) (e : FileEntry)
    (s : SkippedFile) (h : classifyEntry filters e = Sum.inr s) : s.path = e.path := by
  unfold classifyEntry at h
  split_ifs at h <;> cases h <;> rfl

/-- Splitting a traversal through `classifyEntry` is a partition of its
paths: accepted paths and skipped paths together are a permutation of the
traversed paths. -/
theorem classify_partition_perm (filters : FileFilters) (l : List FileEntry) :
    ((l.filterMap fun e => (classifyEntry filters e).getLeft?).map Document.path ++
      (l.filterMap fun e => (classifyEntry filters e).getRight?).map SkippedFile.path).Perm
      (l.map FileEntry.path) := by
  induction l with
  | nil => simp
  | cons e l ih =>
    cases h : classifyEntry filters e with
    | inl d =>
      have hp := classifyEntry_inl_path filters e d h
      simp only [List.filterMap_cons, h, Sum.getLeft?, Sum.getRight?, List.map_cons,
        List.cons_append, List.map]
      exact hp ▸ ih.cons e.path
    | inr s =>
      have hp := classifyEntry_inr_path filters e s h
      simp only [List.filterMap_cons, h, Sum.getLeft?, Sum.getRight?, List.map_cons,
        List.map]
      exact (List.perm_middle.trans (ih.cons s.path)).trans (by rw [hp])

/-- **C2.** For every folder scan with a fixed extension allow-list and size
limit, the accepted paths and the skipped paths together are exactly the
traversed paths (a permutation of them — no traversed entry is omitted),
and when the traversed paths are distinct no path is both accepted and
skipped. -/
theorem scanFolder_accepted_skipped_partition (filters : FileFilters)
    (entries : List FileEntry) :
    (((scanFolder filters entries).files.map Document.path ++
      (scanFolder filters entries).skipped.map SkippedFile.path).Perm
      (entries.map FileEntry.path)) ∧
    ((entries.map FileEntry.path).Nodup →
      ∀ p, ¬(p ∈ (scanFolder filters entries).files.map Document.path ∧
             p ∈ (scanFolder filters entries).skipped.map SkippedFile.path)) := by
  have hsort : (sortByPath entries).Perm entries := List.perm_insertionSort _ _
  have hperm :
      (((scanFolder filters entries).files.map Document.path ++
        (scanFolder filters entries).skipped.map SkippedFile.path).Perm
        (entries.map FileEntry.path)) := by
    simpa [scanFolder] using
      (classify_partition_perm filters (sortByPath entries)).trans
        (hsort.map FileEntry.path)
  refine ⟨hperm, fun hnd p hp => ?_⟩
  have hnd2 : ((scanFolder filters entries).files.map Document.path ++
      (scanFolder filters entries).skipped.map SkippedFile.path).Nodup :=
    (List.Perm.nodup_iff hperm).mpr hnd
  exact (List.nodup_append.mp hnd2).2.2 hp.1 hp.2

/-- Witness for C2 at the spec's own scenario (`a.pdf` 2 MB, `b.exe` 1 MB,
`c.pdf` 20 MB, allow-list `['.pdf']`, limit 10 MB): `a.pdf` is not both
accepted and skipped. -/
theorem scanFolder_partition_witness :
    ¬("/docs/a.pdf" ∈ (scanFolder ⟨some [".pdf"], 10485760⟩
        [⟨"/docs/a.pdf", ".pdf", 2097152, true⟩,
         ⟨"/docs/b.exe", ".exe", 1048576, true⟩,
         ⟨"/docs/c.pdf", ".pdf", 20971520, true⟩]).files.map Document.path ∧
      "/docs/a.pdf" ∈ (scanFolder ⟨some [".pdf"], 10485760⟩
        [⟨"/docs/a.pdf", ".pdf", 2097152, true⟩,
         ⟨"/docs/b.exe", ".exe", 1048576, true⟩,
         ⟨"/docs/c.pdf", ".pdf", 20971520, true⟩]).skipped.map SkippedFile.path) :=
  (scanFolder_accepted_skipped_partition ⟨some [".pdf"], 10485760⟩
    [⟨"/docs/a.pdf", ".pdf", 2097152, true⟩,
     ⟨"/docs/b.exe", ".exe", 1048576, true⟩,
     ⟨"/docs/c.pdf", ".pdf", 20971520, true⟩]).2 (by decide) "/docs/a.pdf"

/-- A `pathLe`-sorted traversal whose paths are distinct is strictly
sorted by path. -/
theorem sorted_pathLt_of_nodup {l : List FileEntry} (hs : List.Sorted pathLe l)
    (hnd : (l.map FileEntry.path).Nodup) : List.Pairwise pathLt l := by
  have hne : List.Pairwise (fun a b : FileEntry => a.path ≠ b.path) l :=
    List.pairwise_map.mp hnd
  exact (hs.and hne).imp fun h => lt_of_le_of_ne h.1 h.2

/-- Sorting lexically by path is invariant under reordering of the
traversal, as long as paths are distinct. -/
theorem sortByPath_eq_of_perm {l₁ l₂ : List FileEntry} (hp : l₁.Perm l₂)
    (hnd : (l₁.map FileEntry.path).Nodup) : sortByPath l₁ = sortByPath l₂ := by
  have hp' : (sortByPath l₁).Perm (sortByPath l₂) :=
    ((List.perm_insertionSort pathLe l₁).trans hp).trans
      (List.perm_insertionSort pathLe l₂).symm
  have hnd₁ : ((sortByPath l₁).map FileEntry.path).Nodup :=
    (List.Perm.nodup_iff ((List.perm_insertionSort pathLe l₁).map _)).mpr hnd
  have hnd₂ : ((sortByPath l₂).map FileEntry.path).Nodup :=
    (List.Perm.nodup_iff ((hp'.map _).symm)).mpr hnd₁
  exact List.eq_of_perm_of_sorted hp'
    (sorted_pathLt_of_nodup (List.sorted_insertionSort pathLe l₁) hnd₁)
    (sorted_pathLt_of_nodup (List.sorted_insertionSort pathLe l₂) hnd₂)

/-- **C8.** Over an unchanged filesystem (the same traversed entries, in
whatever order the walk reports them), two scans with the same filters
produce identical results, and both output lists are ordered lexically
by path. -/
theorem scanFolder_deterministic_and_sorted (filters : FileFilters)
    (l₁ l₂ : List FileEntry) (hp : l₁.Perm l₂)
    (hnd : (l₁.map FileEntry.path).Nodup) :
    scanFolder filters l₁ = scanFolder filters l₂ ∧
    List.Sorted (· ≤ ·) ((scanFolder filters l₁).files.map Document.path) ∧
    List.Sorted (· ≤ ·) ((scanFolder filters l₁).skipped.map SkippedFile.path) := by
  refine ⟨?_, ?_, ?_⟩
  · simp only [scanFolder, sortByPath_eq_of_perm hp hnd]
  · have hs : List.Pairwise pathLe (sortByPath l₁) :=
      List.sorted_insertionSort pathLe l₁
    have hf : List.Pairwise (fun d d' : Document => d.path ≤ d'.path)
        ((sortByPath l₁).filterMap fun e => (classifyEntry filters e).getLeft?) := by
      refine hs.filterMap _ (fun a a' r b hb b' hb' => ?_)
      have hb1 : b.path = a.path :=
        classifyEntry_inl_path filters a b (Sum.getLeft?_eq_some_iff.mp hb)
      have hb2 : b'.path = a'.path :=
        classifyEntry_inl_path filters a' b' (Sum.getLeft?_eq_some_iff.mp hb')
      rw [hb1, hb2]; exact r
    simpa [scanFolder, List.Sorted, List.pairwise_map] using hf
  · have hs : List.Pairwise pathLe (sortByPath l₁) :=
      List.sorted_insertionSort pathLe l₁
    have hf : List.Pairwise (fun d d' : SkippedFile => d.path ≤ d'.path)
        ((sortByPath l₁).filterMap fun e => (classifyEntry filters e).getRight?) := by
      refine hs.filterMap _ (fun a a' r b hb b' hb' => ?_)
      have hb1 : b.path = a.path :=
        classifyEntry_inr_path filters a b (Sum.getRight?_eq_some_iff.mp hb)
      have hb2 : b'.path = a'.path :=
        classifyEntry_inr_path filters a' b' (Sum.getRight?_eq_some_iff.mp hb')
      rw [hb1, hb2]; exact r
    simpa [scanFolder, List.Sorted, List.pairwise_map] using hf

/-- Witness for C8: two reversed listings of the same two files scan to the
same result, and the accepted paths come out lexically sorted. -/
theorem scanFolder_deterministic_witness :
    scanFolder ⟨none, 10485760⟩
        [⟨"/d/b.txt", ".txt", 10, true⟩, ⟨"/d/a.txt", ".txt", 5, true⟩] =
      scanFolder ⟨none, 10485760⟩
        [⟨"/d/a.txt", ".txt", 5, true⟩, ⟨"/d/b.txt", ".txt", 10, true⟩] ∧
    List.Sorted (· ≤ ·) ((scanFolder ⟨none, 10485760⟩
        [⟨"/d/b.txt", ".txt", 10, true⟩,
         ⟨"/d/a.txt", ".txt", 5, true⟩]).files.map Document.path) ∧
    List.Sorted (· ≤ ·) ((scanFolder ⟨none, 10485760⟩
        [⟨"/d/b.txt", ".txt", 10, true⟩,
         ⟨"/d/a.txt", ".txt", 5, true⟩]).skipped.map SkippedFile.path) :=
  scanFolder_deterministic_and_sorted ⟨none, 10485760⟩
    [⟨"/d/b.txt", ".txt", 10, true⟩, ⟨"/d/a.txt", ".txt", 5, true⟩]
    [⟨"/d/a.txt", ".txt", 5, true⟩, ⟨"/d/b.txt", ".txt", 10, true⟩]
    (List.Perm.swap (⟨"/d/a.txt", ".txt", 5, true⟩ : FileEntry)
      (⟨"/d/b.txt", ".txt", 10, true⟩ : FileEntry) [])
    (by decide)

/-! ### CLI commands (`src/cli/commands/upload.ts`, `src/cli/commands/status.ts`) -/

/-- What the filesystem holds at one path. -/
inductive FsNode where
  | missing
  | file (e : FileEntry)
  | dir (entries : List FileEntry)
deriving Repr, DecidableEq

/-- The filesystem as `loadFile` sees it: an entry only for plain files. -/
def fsLookup (fs : String → FsNode) (p : String) : Option FileEntry :=
  match fs p with
  | .file e => some e
  | _ => none

/-- Longest leading digit run of radix 10, accumulated left to right;
`none` when no digit was seen (the `NaN` case). -/
def parseDigits : List Char → Nat → Bool → Option Nat
  | [], acc, seen => if seen then some acc else none
  | c :: rest, acc, seen =>
    if c.isDigit then parseDigits rest (acc * 10 + (c.toNat - 48)) true
    else if seen then some acc else none

/-- Model of JavaScript's whitespace trimming, over the character
sequence: leading and trailing whitespace removed. -/
def jsTrim (cs : List Char) : List Char :=
  ((cs.dropWhile Char.isWhitespace).reverse.dropWhile Char.isWhitespace).reverse

/-- Model of ECMAScript `parseInt(s)` with radix 10: leading whitespace
skipped, an optional sign, then the longest digit prefix; `none` models
`NaN`. -/
def jsParseInt (s : String) : Option Int :=
  match jsTrim s.data with
  | '-' :: rest => (parseDigits rest 0 false).map fun n => -(n : Int)
  | '+' :: rest => (parseDigits rest 0 false).map fun n => (n : Int)
  | cs => (parseDigits cs 0 false).map fun n => (n : Int)

/-- Model of JavaScript `String.prototype.startsWith`: the first
`p.length` characters of `s` are exactly `p`. -/
def jsStartsWith (s p : String) : Bool :=
  s.data.take p.data.length == p.data

theorem jsStartsWith_append (p s : String) : jsStartsWith (p ++ s) p = true := by
  simp [jsStartsWith, String.data_append, List.take_left]

/-- JavaScript truthiness of an optional string: `undefined` and the
empty string are falsy. -/
def strTruthy : Option String → Bool
  | none => false
  | some s => s != ""

/-- The options record `uploadCommand` passes to `new FileManager(...)`. -/
structure FileManagerOptions where
  recursive : Bool
  extensions : Option (List String)
  maxFileSize : Option Int
deriving Repr, DecidableEq

/-- The `FileManager` configuration built by `uploadCommand`
(`upload.ts:18-24`): `options.types`, when given, is split on commas and
each piece trimmed and prefixed with a dot; `options.maxSize` goes
through `parseInt` and is scaled by `1024 * 1024` (`none` models `NaN`). -/
def uploadFileManagerOptions (recursive : Bool) (types : Option String)
    (maxSize : String) : FileManagerOptions :=
  { recursive := recursive
    extensions := types.map fun t => (t.splitOn ",").map fun piece => "." ++ piece.trim
    maxFileSize := (jsParseInt maxSize).map fun m => m * (1024 * 1024) }

/-- One observable CLI effect: a printed line or a `process.exit` call. -/
inductive CliEvent where
  | info (message : String)
  | error (message : String)
  | success (message : String)
  | exit (code : Nat)
deriving Repr, DecidableEq

/-- Exit code resulting from a trace: the first `process.exit` call, if
any; `none` means the process ends normally (exit code 0). -/
def exitCodeOf (events : List CliEvent) : Option Nat :=
  events.findSome? fun e =>
    match e with
    | .exit c => some c
    | _ => none

/-- The per-path loop of `uploadCommand` (`upload.ts:31-89`): a missing
path records a `File not found` error and the loop continues; a directory
contributes its scan's accepted files; a plain file goes through
`loadFile`, a `null` result recording a `Could not load file` error.
`filters` are the file manager's effective scan filters. -/
def uploadGo (fs : String → FsNode) (filters : FileFilters) :
    List String → List Document × List String
  | [] => ([], [])
  | p :: ps =>
    let rest := uploadGo fs filters ps
    match fs p with
    | .missing => (rest.1, ("File not found: " ++ p) :: rest.2)
    | .dir entries => ((scanFolder filters entries).files ++ rest.1, rest.2)
    | .file _ =>
      match loadFile (fsLookup fs) p with
      | some d => (d :: rest.1, rest.2)
      | none => (rest.1, ("Could not load file: " ++ p) :: rest.2)

/-- Observable outcome of `uploadCommand`. -/
structure UploadOutcome where
  allFiles : List Document
  errors : List String
  events : List CliEvent
deriving Repr, DecidableEq

/-- `uploadCommand(files, options)` (`upload.ts:17-117`): runs the
per-path loop, then prints either a success summary or the error
`No files were loaded.`, then every collected error.  The source contains
no `process.exit` call, so the trace holds no exit event. -/
def uploadCommand (fs : String → FsNode) (filters : FileFilters)
    (files : List String) : UploadOutcome :=
  let r := uploadGo fs filters files
  { allFiles := r.1
    errors := r.2
    events :=
      (if r.1.length > 0 then
        [CliEvent.success ("Total files loaded: " ++ toString r.1.length)]
      else
        [CliEvent.error "No files were loaded."]) ++ r.2.map CliEvent.error }

/-- A remote session as the status command consumes it. -/
structure Session where
  name : String
  displayName : Option String
  model : Option String
deriving Repr, DecidableEq

/-- The session name `statusCommand` passes to `client.getSession`
(`status.ts:58-60`): an id already starting with `sessions/` is passed
through, a bare id has `sessions/` prepended. -/
def sessionName (sessionId : String) : String :=
  if jsStartsWith sessionId "sessions/" then sessionId
  else "sessions/" ++ sessionId

/-- Observable outcome of `statusCommand`: its trace and the session name
it queried `getSession` with, if any. -/
structure StatusOutcome where
  events : List CliEvent
  queriedSession : Option String
deriving Repr, DecidableEq

/-- `statusCommand(sessionId, options)` (`status.ts:13-100`): exits with
code 1 when `GEMINI_API_KEY` is unset (or empty, which JavaScript treats
as falsy); with `--list`, exits 1 when `listSessions` fails; with a
truthy session id, queries `getSession` with the normalised name and
exits 1 when that fails; otherwise prints usage.  Remote answers are
passed in as `listResult` / `getResult`; display-only detail lines are
elided from the trace. -/
def statusCommand (apiKey : Option String) (sessionId : Option String)
    (list : Bool) (listResult : ApiResponse (List Session))
    (getResult : String → ApiResponse Session) : StatusOutcome :=
  if strTruthy apiKey = false then
    { events := [.error "GEMINI_API_KEY environment variable is not set.", .exit 1]
      queriedSession := none }
  else if list then
    match listResult with
    | .failure err =>
      { events := [.info "Fetching sessions...",
                   .error ("Failed to fetch sessions: " ++ err.message), .exit 1]
        queriedSession := none }
    | .success sessions =>
      { events := if sessions.isEmpty then [.info "No active sessions found."]
          else [.success ("Found " ++ toString sessions.length ++ " session(s)")]
        queriedSession := none }
  else if strTruthy sessionId then
    let sid := sessionId.getD ""
    match getResult (sessionName sid) with
    | .failure err =>
      { events := [.error ("Failed to fetch session: " ++ err.message), .exit 1]
        queriedSession := some (sessionName sid) }
    | .success _ =>
      { events := [.success "Session Details:"]
        queriedSession := some (sessionName sid) }
  else
    { events := [.info "Usage:"], queriedSession := none }

/-- **C3.** `loadFile` on a path that does not exist or cannot be read
returns an absent result (being a total function it signals no thrown
fault), and `uploadCommand`'s loop records an error for such a path while
processing the remaining paths exactly as it would without it. -/
theorem loadFile_absent_never_throws :
    (∀ (fsL : String → Option FileEntry) (p : String),
      fsL p = none → loadFile fsL p = none) ∧
    (∀ (fsL : String → Option FileEntry) (p : String) (e : FileEntry),
      fsL p = some e → e.readable = false → loadFile fsL p = none) ∧
    (∀ (fs : String → FsNode) (filters : FileFilters) (p : String)
      (ps : List String) (e : FileEntry),
      fs p = .file e → e.readable = false →
      uploadGo fs filters (p :: ps) =
        ((uploadGo fs filters ps).1,
          ("Could not load file: " ++ p) :: (uploadGo fs filters ps).2)) := by
  refine ⟨fun fsL p h => ?_, fun fsL p e h hr => ?_,
    fun fs filters p ps e h hr => ?_⟩
  · simp [loadFile, h]
  · simp [loadFile, h, hr]
  · simp [uploadGo, h, loadFile, fsLookup, hr]

/-- Witness for C3: on an empty filesystem, loading `/missing.pdf` yields
the absent result. -/
theorem loadFile_absent_witness :
    loadFile (fun _ => none) "/missing.pdf" = none :=
  loadFile_absent_never_throws.1 (fun _ => none) "/missing.pdf" rfl

/-- **C6 (counterexample).** An upload invocation whose single path does
not exist ends in the unrecoverable "no file successfully loaded" state,
reports `No files were loaded.` as an error — yet its trace performs no
`process.exit`, so the process ends with exit code 0, not a non-zero
code. -/
theorem uploadCommand_no_files_exits_zero :
    (uploadCommand (fun _ => FsNode.missing) ⟨none, 10485760⟩
      ["missing.txt"]).allFiles = [] ∧
    CliEvent.error "No files were loaded." ∈
      (uploadCommand (fun _ => FsNode.missing) ⟨none, 10485760⟩
        ["missing.txt"]).events ∧
    CliEvent.error "File not found: missing.txt" ∈
      (uploadCommand (fun _ => FsNode.missing) ⟨none, 10485760⟩
        ["missing.txt"]).events ∧
    exitCodeOf (uploadCommand (fun _ => FsNode.missing) ⟨none, 10485760⟩
      ["missing.txt"]).events = none := by
  refine ⟨rfl, ?_, ?_, rfl⟩ <;> simp [uploadCommand, uploadGo, exitCodeOf]

/-- **C6 (amended).** `statusCommand` exits with code 1 on a missing (or
empty) `GEMINI_API_KEY` and on a failed remote call, both for `--list`
and for a session query; `uploadCommand`, however, never calls
`process.exit`, so an invocation in which no file was successfully
loaded still ends with exit code 0. -/
theorem cli_exit_codes (apiKey : Option String) (sessionId : Option String)
    (list : Bool) (lr : ApiResponse (List Session))
    (gr : String → ApiResponse Session) (err : ErrorInfo) (sid : String)
    (fs : String → FsNode) (filters : FileFilters) (files : List String) :
    (strTruthy apiKey = false →
      exitCodeOf (statusCommand apiKey sessionId list lr gr).events = some 1) ∧
    (strTruthy apiKey = true → list = true → lr = .failure err →
      exitCodeOf (statusCommand apiKey sessionId list lr gr).events = some 1) ∧
    (strTruthy apiKey = true → list = false → sessionId = some sid →
      sid ≠ "" → gr (sessionName sid) = .failure err →
      exitCodeOf (statusCommand apiKey sessionId list lr gr).events = some 1) ∧
    exitCodeOf (uploadCommand fs filters files).events = none := by
  refine ⟨fun hkey => ?_, fun hkey hl hlr => ?_,
    fun hkey hl hsid hne hgr => ?_, ?_⟩
  · simp [statusCommand, hkey, exitCodeOf]
  · subst hl hlr
    simp [statusCommand, hkey, exitCodeOf]
  · subst hl hsid
    have htr : strTruthy (some sid) = true := by
      simp [strTruthy, hne]
    simp [statusCommand, hkey, htr, hgr, exitCodeOf]
  · have herrs : ∀ l : List String,
        (l.map CliEvent.error).findSome? (fun e =>
          match e with
          | CliEvent.exit c => some c
          | _ => none) = none := by
      intro l
      induction l with
      | nil => rfl
      | cons a l ih => simpa [List.findSome?_cons] using ih
    by_cases h : (uploadGo fs filters files).1.length > 0 <;>
      simp [uploadCommand, exitCodeOf, h, List.findSome?_cons, herrs]

/-- Witness for C6 (amended): with `GEMINI_API_KEY` unset, the status
command exits with code 1. -/
theorem cli_exit_codes_witness :
    exitCodeOf (statusCommand none (some "abc123") false
      (ApiResponse.success []) (fun _ => ApiResponse.success
        ⟨"sessions/abc123", none, none⟩)).events = some 1 :=
  (cli_exit_codes none (some "abc123") false (ApiResponse.success [])
    (fun _ => ApiResponse.success ⟨"sessions/abc123", none, none⟩)
    ⟨"", ""⟩ "abc123" (fun _ => FsNode.missing) ⟨none, 0⟩ []).1 rfl

/-- **C7.** `uploadCommand` configures the file manager so that
`--max-size` (in MB) becomes exactly that number times `1024 * 1024`
bytes, each entry of the comma-separated `--types` list is trimmed and
prefixed with a dot, and no allow-list is configured when `--types` is
absent. -/
theorem uploadCommand_filemanager_config (recursive : Bool)
    (types : Option String) (maxSize : String) (m : Int)
    (hm : jsParseInt maxSize = some m) :
    (uploadFileManagerOptions recursive types maxSize).maxFileSize =
      some (m * (1024 * 1024)) ∧
    (types = none →
      (uploadFileManagerOptions recursive types maxSize).extensions = none) ∧
    (∀ t, types = some t →
      (uploadFileManagerOptions recursive types maxSize).extensions =
        some ((t.splitOn ",").map fun piece => "." ++ piece.trim) ∧
      ∀ ext ∈ (t.splitOn ",").map (fun piece => "." ++ piece.trim),
        jsStartsWith ext "." = true ∧
        ∃ piece ∈ t.splitOn ",", ext = "." ++ piece.trim) := by
  refine ⟨by simp [uploadFileManagerOptions, hm], fun h => ?_, fun t ht => ?_⟩
  · subst h; rfl
  · subst ht
    refine ⟨rfl, fun ext hext => ?_⟩
    obtain ⟨piece, hp, rfl⟩ := List.mem_map.mp hext
    exact ⟨jsStartsWith_append "." piece.trim, piece, hp, rfl⟩

/-- Witness for C7: `--max-size 10` becomes a limit of `10 * 1024 * 1024`
bytes. -/
theorem uploadCommand_filemanager_config_witness :
    (uploadFileManagerOptions true (some "pdf, txt") "10").maxFileSize =
      some (10 * (1024 * 1024)) :=
  (uploadCommand_filemanager_config true (some "pdf, txt") "10" 10 (by rfl)).1

/-- **C10.** For every non-empty session id, `statusCommand` queries
`getSession` with a name that starts with `sessions/`: an id already
carrying the prefix is passed through unchanged, a bare id has the
prefix prepended, and the normalisation is idempotent. -/
theorem statusCommand_session_name (apiKey : Option String)
    (hkey : strTruthy apiKey = true) (sid : String) (hsid : sid ≠ "")
    (lr : ApiResponse (List Session)) (gr : String → ApiResponse Session) :
    (statusCommand apiKey (some sid) false lr gr).queriedSession =
      some (sessionName sid) ∧
    jsStartsWith (sessionName sid) "sessions/" = true ∧
    (jsStartsWith sid "sessions/" = true → sessionName sid = sid) ∧
    sessionName (sessionName sid) = sessionName sid := by
  have htr : strTruthy (some sid) = true := by simp [strTruthy, hsid]
  have hsw : jsStartsWith (sessionName sid) "sessions/" = true := by
    by_cases h : jsStartsWith sid "sessions/" = true
    · simpa [sessionName, h] using h
    · simp [sessionName, h, jsStartsWith_append]
  have hidem : sessionName (sessionName sid) = sessionName sid := by
    by_cases h : jsStartsWith sid "sessions/" = true
    · have e1 : sessionName sid = sid := by simp [sessionName, h]
      simp [e1, sessionName, h]
    · have e1 : sessionName sid = "sessions/" ++ sid := by simp [sessionName, h]
      rw [e1]
      simp [sessionName, jsStartsWith_append]
  refine ⟨?_, hsw, fun h => by simp [sessionName, h], hidem⟩
  cases hgr : gr (sessionName sid) <;>
    simp [statusCommand, hkey, htr, hgr]

/-! ### Web server (the Express server source file) -/

/-- HTTP method, as far as the middleware pipeline distinguishes them. -/
inductive Method where
  | GET
  | POST
  | PUT
  | DELETE
  | OPTIONS
deriving Repr, DecidableEq

/-- The response headers this server ever sets. -/
structure Headers where
  accessControlAllowOrigin : Option String := none
  accessControlAllowMethods : Option String := none
  accessControlAllowHeaders : Option String := none
  cacheControl : Option String := none
  pragma : Option String := none
  expires : Option String := none
  surrogateControl : Option String := none
deriving Repr, DecidableEq

/-- The CORS middleware: sets the permissive CORS headers on every
request before any route runs. -/
def corsHeaders (h : Headers) : Headers :=
  { h with
    accessControlAllowOrigin := some "*"
    accessControlAllowMethods := some "GET, POST, PUT, DELETE, OPTIONS"
    accessControlAllowHeaders :=
      some "Origin, X-Requested-With, Content-Type, Accept, Authorization" }

/-- The cache-disabling headers, set by `express.static`'s `setHeaders`
and again by the SPA catch-all. -/
def noCacheHeaders (h : Headers) : Headers :=
  { h with
    cacheControl := some "no-store, no-cache, must-revalidate, proxy-revalidate"
    pragma := some "no-cache"
    expires := some "0"
    surrogateControl := some "no-store" }

/-- Response body kinds the pipeline distinguishes. -/
inductive BodyKind where
  | empty
  | staticFile (path : String)
  | healthJson
  | indexHtml
  | apiJson
deriving Repr, DecidableEq

/-- An HTTP response: status, headers and body kind. -/
structure HttpResponse where
  status : Nat
  headers : Headers
  body : BodyKind
deriving Repr, DecidableEq

/-- An incoming HTTP request. -/
structure WebRequest where
  method : Method
  path : String
deriving Repr, DecidableEq

/-- The server's pipeline in source order: CORS middleware (answering
`OPTIONS` directly with 200), static files under `public/` (with the
cache-disabling headers), the `/api` router, `GET /health`, and the SPA
catch-all serving `index.html` with the cache-disabling headers; a
request matching nothing falls through to Express's 404.  `isStaticFile`
says which paths exist under `public/`.  The `/api` router module is not
among the provided sources; per the spec it only produces JSON bodies,
so its responses are modelled as carrying exactly the headers the
middleware already set, with a caller-supplied status. -/
def handleRequest (isStaticFile : String → Bool) (apiStatus : WebRequest → Nat)
    (req : WebRequest) : HttpResponse :=
  let h := corsHeaders {}
  if req.method = .OPTIONS then
    { status := 200, headers := h, body := .empty }
  else if isStaticFile req.path then
    { status := 200, headers := noCacheHeaders h, body := .staticFile req.path }
  else if jsStartsWith req.path "/api" then
    { status := apiStatus req, headers := h, body := .apiJson }
  else if req.method = .GET ∧ req.path = "/health" then
    { status := 200, headers := h, body := .healthJson }
  else if req.method = .GET then
    { status := 200, headers := noCacheHeaders h, body := .indexHtml }
  else
    { status := 404, headers := h, body := .empty }

/-- Body of the error middleware's answer:
`{success: false, error: {code, message}}`. -/
structure ErrorResponseBody where
  success : Bool
  error : ErrorInfo
deriving Repr, DecidableEq

/-- The error-handling middleware: an uncaught fault is answered with
HTTP 500 and `{success: false, error: {code: 'INTERNAL_ERROR', message}}`,
the message being the fault's own only when `NODE_ENV` is
`development`. -/
def errorMiddleware (nodeEnv : Option String) (errMessage : String) :
    Nat × ErrorResponseBody :=
  (500,
    { success := false
      error :=
        { code := "INTERNAL_ERROR"
          message :=
            if nodeEnv = some "development" then errMessage
            else "Internal server error" } })

/-- **C4.** Every uncaught fault reaching the error middleware is answered
with status 500 and body `{success: false, error: {code, message}}`, the
code being `INTERNAL_ERROR` and the message being the fault's own detail
when `NODE_ENV` is `development` and the generic `Internal server error`
otherwise. -/
theorem errorMiddleware_response (nodeEnv : Option String) (errMessage : String) :
    (errorMiddleware nodeEnv errMessage).1 = 500 ∧
    (errorMiddleware nodeEnv errMessage).2.success = false ∧
    (errorMiddleware nodeEnv errMessage).2.error.code = "INTERNAL_ERROR" ∧
    (nodeEnv = some "development" →
      (errorMiddleware nodeEnv errMessage).2.error.message = errMessage) ∧
    (nodeEnv ≠ some "development" →
      (errorMiddleware nodeEnv errMessage).2.error.message =
        "Internal server error") := by
  refine ⟨rfl, rfl, rfl, fun h => ?_, fun h => ?_⟩ <;> simp [errorMiddleware, h]

/-- Witness for C4: in development mode the fault's own message comes
through; outside it the generic text does. -/
theorem errorMiddleware_response_witness :
    (errorMiddleware (some "development") "boom").2.error.message = "boom" :=
  (errorMiddleware_response (some "development") "boom").2.2.2.1 rfl

/-- **C5 (counterexample).** Not every response carries the
cache-disabling headers: the answer to `GET /health` carries
`Access-Control-Allow-Origin: *` but no `Cache-Control` header at all. -/
theorem health_response_lacks_cache_headers :
    (handleRequest (fun _ => false) (fun _ => 200)
      ⟨.GET, "/health"⟩).headers.accessControlAllowOrigin = some "*" ∧
    (handleRequest (fun _ => false) (fun _ => 200)
      ⟨.GET, "/health"⟩).headers.cacheControl = none ∧
    (handleRequest (fun _ => false) (fun _ => 200)
      ⟨.GET, "/health"⟩).body = .healthJson := by
  refine ⟨?_, ?_, ?_⟩ <;> decide

/-- **C5 (amended).** Every response the pipeline produces carries the
permissive CORS header `Access-Control-Allow-Origin: *`; the
cache-disabling headers are set on static-file responses and on the SPA
catch-all, while the `/health` handler sets none of them. -/
theorem handleRequest_cors_and_cache (isStaticFile : String → Bool)
    (apiStatus : WebRequest → Nat) (req : WebRequest) :
    (handleRequest isStaticFile apiStatus req).headers.accessControlAllowOrigin =
      some "*" ∧
    (isStaticFile req.path = true → req.method ≠ .OPTIONS →
      (handleRequest isStaticFile apiStatus req).headers.cacheControl =
        some "no-store, no-cache, must-revalidate, proxy-revalidate") ∧
    ((handleRequest isStaticFile apiStatus req).body = .indexHtml →
      (handleRequest isStaticFile apiStatus req).headers.cacheControl =
        some "no-store, no-cache, must-revalidate, proxy-revalidate") ∧
    ((handleRequest isStaticFile apiStatus req).body = .healthJson →
      (handleRequest isStaticFile apiStatus req).headers.cacheControl = none) := by
  unfold handleRequest
  split_ifs <;> simp_all [corsHeaders, noCacheHeaders]

/-- Witness for C5 (amended): the SPA catch-all answer to `GET /` carries
both the CORS header and the cache-disabling `Cache-Control`. -/
theorem handleRequest_cors_and_cache_witness :
    (handleRequest (fun _ => false) (fun _ => 200)
      ⟨.GET, "/"⟩).headers.accessControlAllowOrigin = some "*" ∧
    (handleRequest (fun _ => false) (fun _ => 200)
      ⟨.GET, "/"⟩).headers.cacheControl =
      some "no-store, no-cache, must-revalidate, proxy-revalidate" :=
  ⟨(handleRequest_cors_and_cache (fun _ => false) (fun _ => 200) ⟨.GET, "/"⟩).1,
   (handleRequest_cors_and_cache (fun _ => false) (fun _ => 200)
     ⟨.GET, "/"⟩).2.2.1 (by decide)⟩

/-- Witness for C10: the bare id `abc123` is queried as its normalised
session name. -/
theorem statusCommand_session_name_witness :
    (statusCommand (some "key") (some "abc123") false (ApiResponse.success [])
      (fun _ => ApiResponse.success ⟨"sessions/abc123", none, none⟩)).queriedSession =
      some (sessionName "abc123") :=
  (statusCommand_session_name (some "key") (by decide) "abc123" (by decide)
    (ApiResponse.success [])
    (fun _ => ApiResponse.success ⟨"sessions/abc123", none, none⟩)).1
